import Mathlib

/-!
# Verification of the CSV-backed book repository

A shallow embedding of the book library component of this repository:
the pydantic `Book` model (`Model/book.py`) with its field validation,
and the `CSV_Repository` CRUD operations (`Repository/csv_repository.py`)
over the pandas dataframe persisted as a CSV file.

The dataframe within one load-act-save cycle is modelled as a `List`
of stored records in row order.  The persistence layer (`to_csv` /
`read_csv`) is modelled separately, at the level of rows of cell
strings, including pandas' per-column integer dtype inference, which is
the behaviour relevant to the persist/reload round-trip properties.
-/

namespace Library

/-- `Book` from `Model/book.py`: a pydantic model with an optional `id`
(defaulting to `None`) and the four payload fields. -/
structure Book where
  title : String
  author : String
  year : Int
  isbn : String
  id : Option Int := none
deriving Repr, DecidableEq

/-- The marker substrings recognised by `Book.validate_isbn`:
`['isbn', '978', '979']`. -/
def markers : List String := ["isbn", "978", "979"]

/-- `any(prefix in field.lower() for prefix in ['isbn', '978', '979'])`
from `Book.validate_isbn`: case-insensitive substring containment of one
of the markers, with lowering applied character by character (Python's
`str.lower` restricted to ASCII, which covers every marker). -/
def hasMarker (isbn : String) : Bool :=
  markers.any (fun m => decide (m.toList <:+: isbn.toList.map Char.toLower))

/-- The fields a pydantic validation error can point at, for the
constraints declared on `Book`. -/
inductive FieldError where
  | titleLength
  | authorLength
  | yearRange
  | isbnLength
  | isbnMarker
deriving Repr, DecidableEq

/-- The pydantic validation pipeline of `Book`, per field and in field
order: `title` (`min_length=1, max_length=200`), `author`
(`min_length=1, max_length=100`), `year` (`ge=1000, le=2024`), `isbn`
(`min_length=10, max_length=20`, then the custom `validate_isbn`
marker check, which only runs when the length constraints pass). -/
def fieldErrors (b : Book) : List FieldError :=
  (if 1 ≤ b.title.length ∧ b.title.length ≤ 200 then [] else [.titleLength]) ++
  (if 1 ≤ b.author.length ∧ b.author.length ≤ 100 then [] else [.authorLength]) ++
  (if 1000 ≤ b.year ∧ b.year ≤ 2024 then [] else [.yearRange]) ++
  (if 10 ≤ b.isbn.length ∧ b.isbn.length ≤ 20 then
    (if hasMarker b.isbn then [] else [.isbnMarker])
   else [.isbnLength])

/-- A candidate passes the validation boundary iff pydantic reports no
field error. -/
def validBook (b : Book) : Bool := fieldErrors b = []

/-- One row of the repository's dataframe: a book as stored, with its
assigned integer `id` and the four payload columns. -/
structure StoredBook where
  id : Int
  title : String
  author : String
  year : Int
  isbn : String
deriving Repr, DecidableEq

/-- The in-memory dataframe of `CSV_Repository` within one
load-act-save cycle, as its list of rows in order. -/
abbrev Store := List StoredBook

/-- The `id` column of the dataframe (`self.books_dataframe['id']`). -/
def ids (s : Store) : List Int := s.map (·.id)

/-- `df['col'].max()` on a non-empty column (the empty case is guarded
by the caller; `0` is an arbitrary default). -/
def colMax : List Int → Int
  | [] => 0
  | y :: ys => ys.foldl max y

/-- `_get_next_id`: `1` if the dataframe is empty, otherwise
`df['id'].max() + 1`. -/
def getNextId (s : Store) : Int :=
  if s.isEmpty then 1 else colMax (ids s) + 1

/-- `add`: copy the candidate, overwrite its `id` with `_get_next_id()`,
append the row, and return the stored record. -/
def add (s : Store) (b : Book) : Store × StoredBook :=
  let nb : StoredBook := ⟨getNextId s, b.title, b.author, b.year, b.isbn⟩
  (s ++ [nb], nb)

/-- `update`: if the dataframe is empty or `book_id` is not in the `id`
column, return `None` and leave the rows unchanged.  Otherwise set the
`title`, `author`, `year` and `isbn` columns of every row whose `id`
matches, and return the replacement carrying `book_id`. -/
def update (s : Store) (bookId : Int) (b : Book) : Store × Option StoredBook :=
  if s.isEmpty || !((ids s).contains bookId) then (s, none)
  else
    (s.map (fun r =>
      if r.id = bookId then ⟨r.id, b.title, b.author, b.year, b.isbn⟩ else r),
     some ⟨bookId, b.title, b.author, b.year, b.isbn⟩)

/-- `remove`: if the dataframe is empty or `book_id` is not in the `id`
column, return `False` and leave the rows unchanged.  Otherwise keep
exactly the rows whose `id` differs and return `True`. -/
def remove (s : Store) (bookId : Int) : Store × Bool :=
  if s.isEmpty || !((ids s).contains bookId) then (s, false)
  else (s.filter (fun r => r.id ≠ bookId), true)

/-- `get`: `None` on an empty dataframe; otherwise filter rows on
`id == book_id` and return the first match, or `None` if the filter is
empty. -/
def get (s : Store) (bookId : Int) : Option StoredBook :=
  if s.isEmpty then none
  else (s.filter (fun r => r.id = bookId)).head?

/-- `get_all`: every row of the dataframe, in order. -/
def getAll (s : Store) : List StoredBook := s

/-- The create flow of the boundary (`POST /books` in `main.py`): the
candidate is validated by pydantic when the `Book` is constructed;
only a candidate with no field error reaches `CSV_Repository.add`.
A rejected candidate yields the validation errors and the store is
untouched. -/
def createBook (s : Store) (b : Book) : Store × Except (List FieldError) StoredBook :=
  if validBook b then
    let (s', r) := add s b
    (s', .ok r)
  else (s, .error (fieldErrors b))

/-! ## Statistics (`get_books_statistics`) -/

/-- The `year` column of the dataframe. -/
def yearsOf (s : Store) : List Int := s.map (·.year)

/-- The `author` column of the dataframe. -/
def authorsOf (s : Store) : List String := s.map (·.author)

/-- `df['year'].min()` on a non-empty column. -/
def colMin : List Int → Int
  | [] => 0
  | y :: ys => ys.foldl min y

/-- Python's `round` to an integer: round half to even. -/
def roundHalfEven (q : ℚ) : ℤ :=
  if q - ⌊q⌋ < 1 / 2 then ⌊q⌋
  else if 1 / 2 < q - ⌊q⌋ then ⌊q⌋ + 1
  else if ⌊q⌋ % 2 = 0 then ⌊q⌋ else ⌊q⌋ + 1

/-- `round(x, 1)`: round to one decimal place. -/
def roundTo1 (q : ℚ) : ℚ := (roundHalfEven (q * 10) : ℚ) / 10

/-- `df['author'].value_counts().to_dict()`: each distinct author paired
with the number of rows carrying it (as an association list; the dict
itself is unordered). -/
def valueCounts (l : List String) : List (String × Nat) :=
  l.dedup.map (fun a => (a, l.count a))

/-- The result of `get_books_statistics`: the sentinel dict
`{"total_books": 0, "message": "No books in collection"}` on an empty
frame, or the populated statistics dict. -/
inductive StatsResult where
  | emptyResult
  | stats (totalBooks : Nat) (authorsCount : Nat) (oldest newest : Int)
      (average : ℚ) (booksPerAuthor : List (String × Nat))
deriving Repr, DecidableEq

/-- `get_books_statistics`: the sentinel on an empty frame; otherwise
`len(df)`, `df['author'].nunique()`, min/max/mean (rounded to one
decimal) of the `year` column and the per-author counts. -/
def getBooksStatistics (s : Store) : StatsResult :=
  if s.isEmpty then .emptyResult
  else .stats s.length (authorsOf s).dedup.length
    (colMin (yearsOf s)) (colMax (yearsOf s))
    (roundTo1 (((yearsOf s).sum : ℚ) / (s.length : ℚ)))
    (valueCounts (authorsOf s))

/-! ## The persistence layer

`save_to_csv` / `load_from_csv` via pandas `to_csv` / `read_csv`.
A CSV file is modelled as its rows of cell strings (the textual
quoting/unquoting performed by the pandas writer/reader pair is
abstracted as faithful).  What `read_csv` adds on top is per-column
dtype inference: a column whose every cell is a boolean token becomes
`bool`, a column whose every cell is an integer-format token becomes
`int64`, a column whose every cell is numeric-format or an NA token
becomes `float64`, and any other column stays `object` with its strings
verbatim (NA tokens excepted).  The inference is modelled at that kind
level; the numeric value of a `float64` cell is not modelled (the cell
keeps its source token), and the boolean/numeric token sets are
conservative supersets of what the pandas parser accepts, so that a
cell falling outside them provably forces `object` dtype. -/

/-- The character for decimal digit `d`. -/
def digitChar (d : Nat) : Char := Char.ofNat (48 + d)

/-- Decimal rendering of a natural number, fuel-structured so that it
computes by reduction; callers supply fuel `> n`. -/
def natCsvAux : Nat → Nat → List Char → List Char
  | 0, _, acc => acc
  | fuel + 1, n, acc =>
    if n < 10 then digitChar n :: acc
    else natCsvAux fuel (n / 10) (digitChar (n % 10) :: acc)

/-- Decimal rendering of a natural number. -/
def natCsv (n : Nat) : List Char := natCsvAux (n + 1) n []

/-- Decimal rendering of an integer: what pandas `to_csv` writes for an
`int64` cell. -/
def intCsv : Int → List Char
  | .ofNat n => natCsv n
  | .negSucc n => '-' :: natCsv (n + 1)

/-- `intCsv` as a string cell. -/
def intCsvStr (i : Int) : String := String.mk (intCsv i)

/-- One step of decimal parsing. -/
def readStep (a : Nat) (c : Char) : Nat := a * 10 + (c.toNat - 48)

/-- Decimal parsing of a digit string. -/
def readNat (cs : List Char) : Nat := cs.foldl readStep 0

/-- Reading an integer token (`-` sign allowed). -/
def readIntToken : List Char → Int
  | [] => 0
  | c :: cs => if c = '-' then -(readNat cs : Int) else (readNat (c :: cs) : Int)

/-- Whether a cell is an integer-format token (what pandas parses into
an `int64` column when every cell of the column is one). -/
def isIntToken : List Char → Bool
  | [] => false
  | c :: cs =>
    if c = '-' then !cs.isEmpty && cs.all (·.isDigit)
    else (c :: cs).all (·.isDigit)

/-- Whitespace characters the pandas numeric parser tolerates around a
token. -/
def isWsChar (c : Char) : Bool :=
  c = ' ' || c = '\t' || c = '\r' || c = '\n'

/-- A token with surrounding whitespace trimmed. -/
def coreToken (cs : List Char) : List Char :=
  ((cs.dropWhile isWsChar).reverse.dropWhile isWsChar).reverse

/-- The boolean tokens pandas' parser recognises: a column consisting
solely of these is read as `bool` dtype. -/
def boolTokens : List String :=
  ["True", "TRUE", "true", "False", "FALSE", "false"]

/-- The truthy boolean tokens. -/
def trueTokens : List String := ["True", "TRUE", "true"]

/-- A conservative superset of the cells pandas may read as a boolean
(one of the recognised tokens, up to surrounding whitespace). -/
def isBoolToken (s : String) : Bool :=
  boolTokens.contains (String.mk (coreToken s.toList))

/-- A conservative superset of the infinity/NaN words pandas parses as
floats: `inf`, `Infinity` or `nan` in any letter case, optionally
signed, up to surrounding whitespace. -/
def isInfNanToken (s : String) : Bool :=
  let t := coreToken s.toList
  let t := match t with
    | '+' :: r => r
    | '-' :: r => r
    | r => r
  let low := t.map Char.toLower
  low = "inf".toList || low = "infinity".toList || low = "nan".toList

/-- A conservative superset of the numeric-format tokens pandas may
parse into a numeric (`int64` or `float64`) column: tokens made of
digits, signs, a decimal point, an exponent letter and surrounding
whitespace, plus the infinity/NaN words. -/
def isNumToken (s : String) : Bool :=
  (!s.toList.isEmpty &&
    s.toList.all (fun c => c.isDigit || isWsChar c || c ∈ ['+', '-', '.', 'e', 'E'])) ||
  isInfNanToken s

/-- pandas' default `na_values` tokens, which `read_csv` turns into NaN. -/
def naTokens : List String :=
  ["", "#N/A", "#N/A N/A", "#NA", "-1.#IND", "-1.#QNAN", "-NaN", "-nan",
   "1.#IND", "1.#QNAN", "<NA>", "N/A", "NA", "NULL", "NaN", "None", "n/a",
   "nan", "null"]

/-- A dataframe cell as reloaded by `read_csv`: a verbatim string from
an `object` column, an inferred integer, a `float64` cell (kept as its
source token — its numeric value plays no role in the claims), an
inferred boolean, or NaN (from an NA token). -/
inductive Cell where
  | s (v : String)
  | i (v : Int)
  | f (tok : String)
  | b (v : Bool)
  | nan
deriving Repr, DecidableEq

/-- A reloaded dataframe row. -/
structure Row where
  id : Cell
  title : Cell
  author : Cell
  year : Cell
  isbn : Cell
deriving Repr, DecidableEq

/-- The fixed header written by `save_to_csv` (`to_csv(index=False)`
over the five columns). -/
def header : List String := ["id", "title", "author", "year", "isbn"]

/-- `to_csv` on a dataframe of stored books: one row of rendered cells
per record, integer columns in decimal. -/
def toCsvRows (st : Store) : List (List String) :=
  st.map (fun b => [intCsvStr b.id, b.title, b.author, intCsvStr b.year, b.isbn])

/-- Column `n` of a list of rows. -/
def column (n : Nat) (rows : List (List String)) : List String :=
  rows.map (fun r => r.getD n "")

/-- pandas boolean dtype inference: a non-empty column whose every cell
is a boolean token is read as `bool`. -/
def inferBoolColumn (col : List String) : Bool :=
  !col.isEmpty && col.all isBoolToken

/-- pandas integer dtype inference: a non-empty column whose every cell
is an integer-format token is read as `int64`. -/
def inferIntColumn (col : List String) : Bool :=
  !col.isEmpty && col.all (fun v => isIntToken v.toList)

/-- pandas float dtype inference: a non-empty column whose every cell
is numeric-format or an NA token is read as `float64` (when it is not
already boolean or integer). -/
def inferFloatColumn (col : List String) : Bool :=
  !col.isEmpty && col.all (fun v => isNumToken v || naTokens.contains v)

/-- The dtype `read_csv` infers for a column. -/
inductive ColKind where
  | boolK
  | intK
  | floatK
  | objK
deriving Repr, DecidableEq

/-- Column dtype inference: boolean, then integer, then float, and
`object` otherwise. -/
def inferColKind (col : List String) : ColKind :=
  if inferBoolColumn col then .boolK
  else if inferIntColumn col then .intK
  else if inferFloatColumn col then .floatK
  else .objK

/-- Reading one cell: NA tokens become NaN; the rest follows the
column's inferred dtype (booleans, integers, float cells kept as their
tokens, or the string verbatim). -/
def parseCell (kind : ColKind) (v : String) : Cell :=
  if naTokens.contains v then .nan
  else match kind with
    | .boolK => .b (trueTokens.contains v)
    | .intK => .i (readIntToken v.toList)
    | .floatK => .f v
    | .objK => .s v

/-- `read_csv` on well-formed data rows: per-column dtype inference,
then cell-wise reading. -/
def readCsvRows (rows : List (List String)) : List Row :=
  rows.map (fun r =>
    ⟨parseCell (inferColKind (column 0 rows)) (r.getD 0 ""),
     parseCell (inferColKind (column 1 rows)) (r.getD 1 ""),
     parseCell (inferColKind (column 2 rows)) (r.getD 2 ""),
     parseCell (inferColKind (column 3 rows)) (r.getD 3 ""),
     parseCell (inferColKind (column 4 rows)) (r.getD 4 "")⟩)

/-- The backing file: absent, zero bytes, or a header line plus data
rows. -/
inductive FileState where
  | missing
  | emptyFile
  | table (hdr : List String) (rows : List (List String))
deriving Repr, DecidableEq

/-- The pandas exceptions relevant to `load_from_csv`. -/
inductive ReadError where
  | fileNotFound
  | emptyData
  | parserError
deriving Repr, DecidableEq

/-- `pd.read_csv`: `FileNotFoundError` on a missing file,
`EmptyDataError` on a zero-byte file, `ParserError` when a data row has
more fields than the header, otherwise the parsed frame. -/
def readCsvFile : FileState → Except ReadError (List Row)
  | .missing => .error .fileNotFound
  | .emptyFile => .error .emptyData
  | .table hdr rows =>
    if rows.any (fun r => hdr.length < r.length) then .error .parserError
    else .ok (readCsvRows rows)

/-- `load_from_csv`: `except (pd.errors.EmptyDataError, FileNotFoundError)`
is downgraded to an empty frame; any other exception (notably
`ParserError`) propagates. -/
def loadFromCsv (f : FileState) : Except ReadError (List Row) :=
  match readCsvFile f with
  | .ok rows => .ok rows
  | .error .fileNotFound => .ok []
  | .error .emptyData => .ok []
  | .error .parserError => .error .parserError

/-- `save_to_csv`: the whole frame rewritten, header plus rendered
rows. -/
def saveToCsv (st : Store) : FileState := .table header (toCsvRows st)

/-- The reloaded row a stored book should come back as: the identity
embedding of its typed cells. -/
def embedRow (b : StoredBook) : Row :=
  ⟨.i b.id, .s b.title, .s b.author, .i b.year, .s b.isbn⟩

/-- `get` at the reloaded-frame level: first row whose `id` cell
matches, if any. -/
def frameGet (rows : List Row) (i : Int) : Option Row :=
  if rows.isEmpty then none
  else (rows.filter (fun r => decide (r.id = Cell.i i))).head?

deriving instance DecidableEq for Except

/-- A concrete one-record store used to instantiate the statistics
specification. -/
def statsWitnessStore : Store := [⟨1, "Dune", "Herbert", 1965, "isbn-0441013593"⟩]

/-! ## Helper lemmas: column maxima and minima -/

theorem le_foldl_max (l : List Int) (a : Int) : a ≤ l.foldl max a := by
  induction l generalizing a with
  | nil => simp
  | cons b t ih => exact le_trans (le_max_left a b) (ih (max a b))

theorem mem_le_foldl_max (l : List Int) (a x : Int) (hx : x ∈ l) :
    x ≤ l.foldl max a := by
  induction l generalizing a with
  | nil => cases hx
  | cons b t ih =>
    rcases List.mem_cons.mp hx with rfl | h
    · exact le_trans (le_max_right a x) (le_foldl_max t (max a x))
    · exact ih (max a b) h

theorem foldl_max_mem (l : List Int) (a : Int) :
    l.foldl max a = a ∨ l.foldl max a ∈ l := by
  induction l generalizing a with
  | nil => left; rfl
  | cons b t ih =>
    rcases ih (max a b) with h | h
    · rcases max_choice a b with hm | hm
      · left; rw [List.foldl_cons, h, hm]
      · right; rw [List.foldl_cons, h, hm]; exact List.mem_cons_self b t
    · right
      exact List.mem_cons_of_mem b (by simpa using h)

theorem colMax_mem (l : List Int) (h : l ≠ []) : colMax l ∈ l := by
  cases l with
  | nil => simp at h
  | cons y ys =>
    rcases foldl_max_mem ys y with h1 | h1
    · simp only [colMax, h1]; exact List.mem_cons_self _ _
    · exact List.mem_cons_of_mem _ h1

theorem le_colMax (l : List Int) (x : Int) (hx : x ∈ l) : x ≤ colMax l := by
  cases l with
  | nil => cases hx
  | cons y ys =>
    rcases List.mem_cons.mp hx with rfl | h
    · exact le_foldl_max ys x
    · exact mem_le_foldl_max ys y x h

theorem foldl_min_le (l : List Int) (a : Int) : l.foldl min a ≤ a := by
  induction l generalizing a with
  | nil => simp
  | cons b t ih => exact le_trans (ih (min a b)) (min_le_left a b)

theorem foldl_min_le_mem (l : List Int) (a x : Int) (hx : x ∈ l) :
    l.foldl min a ≤ x := by
  induction l generalizing a with
  | nil => cases hx
  | cons b t ih =>
    rcases List.mem_cons.mp hx with rfl | h
    · exact le_trans (foldl_min_le t (min a x)) (min_le_right a x)
    · exact ih (min a b) h

theorem foldl_min_mem (l : List Int) (a : Int) :
    l.foldl min a = a ∨ l.foldl min a ∈ l := by
  induction l generalizing a with
  | nil => left; rfl
  | cons b t ih =>
    rcases ih (min a b) with h | h
    · rcases min_choice a b with hm | hm
      · left; rw [List.foldl_cons, h, hm]
      · right; rw [List.foldl_cons, h, hm]; exact List.mem_cons_self b t
    · right
      exact List.mem_cons_of_mem b (by simpa using h)

theorem colMin_mem (l : List Int) (h : l ≠ []) : colMin l ∈ l := by
  cases l with
  | nil => simp at h
  | cons y ys =>
    rcases foldl_min_mem ys y with h1 | h1
    · simp only [colMin, h1]; exact List.mem_cons_self _ _
    · exact List.mem_cons_of_mem _ h1

theorem colMin_le (l : List Int) (x : Int) (hx : x ∈ l) : colMin l ≤ x := by
  cases l with
  | nil => cases hx
  | cons y ys =>
    rcases List.mem_cons.mp hx with rfl | h
    · exact foldl_min_le ys x
    · exact foldl_min_le_mem ys y x h

/-- Every `id` currently in the frame is strictly below `_get_next_id`. -/
theorem mem_lt_getNextId (s : Store) (i : Int) (h : i ∈ ids s) :
    i < getNextId s := by
  have hs : ¬ s.isEmpty := by
    cases s with
    | nil => simp [ids] at h
    | cons b t => simp
  have hle : i ≤ colMax (ids s) := le_colMax _ _ h
  simp only [getNextId, if_neg hs]
  omega

/-! ## Helper lemmas: decimal rendering round-trips through parsing -/

theorem digitChar_isDigit : ∀ d < 10, (digitChar d).isDigit = true := by decide

theorem digitChar_toNat : ∀ d < 10, (digitChar d).toNat = 48 + d := by decide

theorem natCsvAux_acc (fuel : Nat) :
    ∀ n acc, n < fuel → natCsvAux fuel n acc = natCsvAux fuel n [] ++ acc := by
  induction fuel with
  | zero => intro n acc h; omega
  | succ fuel ih =>
    intro n acc h
    by_cases h10 : n < 10
    · simp [natCsvAux, h10]
    · have hdiv : n / 10 < fuel := by omega
      simp only [natCsvAux, if_neg h10]
      rw [ih (n / 10) (digitChar (n % 10) :: acc) hdiv,
        ih (n / 10) [digitChar (n % 10)] hdiv]
      simp

theorem natCsvAux_fuel (fuel : Nat) :
    ∀ fuel' n acc, n < fuel → n < fuel' →
      natCsvAux fuel n acc = natCsvAux fuel' n acc := by
  induction fuel with
  | zero => intro fuel' n acc h; omega
  | succ fuel ih =>
    intro fuel' n acc h h'
    cases fuel' with
    | zero => omega
    | succ fuel' =>
      by_cases h10 : n < 10
      · simp [natCsvAux, h10]
      · simp only [natCsvAux, if_neg h10]
        exact ih fuel' (n / 10) _ (by omega) (by omega)

theorem natCsv_lt10 (n : Nat) (h : n < 10) : natCsv n = [digitChar n] := by
  simp [natCsv, natCsvAux, h]

theorem natCsv_ge10 (n : Nat) (h : 10 ≤ n) :
    natCsv n = natCsv (n / 10) ++ [digitChar (n % 10)] := by
  show natCsvAux (n + 1) n [] = _
  simp only [natCsvAux, if_neg (by omega : ¬ n < 10)]
  rw [natCsvAux_acc n (n / 10) [digitChar (n % 10)] (by omega)]
  congr 1
  exact natCsvAux_fuel n (n / 10 + 1) (n / 10) [] (by omega) (by omega)

theorem natCsv_all_digit (n : Nat) : ∀ c ∈ natCsv n, c.isDigit = true := by
  induction n using Nat.strong_induction_on with
  | _ n ih =>
    by_cases h : n < 10
    · rw [natCsv_lt10 n h]
      intro c hc
      rw [List.mem_singleton.mp hc]
      exact digitChar_isDigit n h
    · rw [natCsv_ge10 n (by omega)]
      intro c hc
      rcases List.mem_append.mp hc with h1 | h1
      · exact ih (n / 10) (by omega) c h1
      · rw [List.mem_singleton.mp h1]
        exact digitChar_isDigit _ (Nat.mod_lt n (by omega))

theorem natCsv_ne_nil (n : Nat) : natCsv n ≠ [] := by
  by_cases h : n < 10
  · rw [natCsv_lt10 n h]; simp
  · rw [natCsv_ge10 n (by omega)]; simp

theorem readNat_natCsv (n : Nat) : readNat (natCsv n) = n := by
  induction n using Nat.strong_induction_on with
  | _ n ih =>
    by_cases h : n < 10
    · rw [natCsv_lt10 n h]
      simp [readNat, readStep, digitChar_toNat n h]
    · rw [natCsv_ge10 n (by omega)]
      have happ : readNat (natCsv (n / 10) ++ [digitChar (n % 10)]) =
          readStep (readNat (natCsv (n / 10))) (digitChar (n % 10)) := by
        simp [readNat]
      rw [happ, ih (n / 10) (by omega)]
      simp only [readStep, digitChar_toNat (n % 10) (Nat.mod_lt n (by omega))]
      omega

theorem natCsv_head_ne_dash (n : Nat) (c : Char) (cs : List Char)
    (h : natCsv n = c :: cs) : ¬ c = '-' := by
  intro hc
  have hd : c.isDigit = true := natCsv_all_digit n c (h ▸ List.mem_cons_self c cs)
  rw [hc] at hd
  exact absurd hd (by decide)

theorem isIntToken_intCsv (i : Int) : isIntToken (intCsv i) = true := by
  cases i with
  | ofNat n =>
    show isIntToken (natCsv n) = true
    cases hc : natCsv n with
    | nil => exact absurd hc (natCsv_ne_nil n)
    | cons c cs =>
      have hall : ∀ x ∈ c :: cs, x.isDigit = true := hc ▸ natCsv_all_digit n
      simp only [isIntToken, if_neg (natCsv_head_ne_dash n c cs hc)]
      exact List.all_eq_true.mpr hall
  | negSucc n =>
    show isIntToken ('-' :: natCsv (n + 1)) = true
    have h1 : (natCsv (n + 1)).isEmpty = false := by
      simpa using natCsv_ne_nil (n + 1)
    have h2 : (natCsv (n + 1)).all (·.isDigit) = true :=
      List.all_eq_true.mpr (natCsv_all_digit (n + 1))
    simp [isIntToken, h1, h2]

theorem readIntToken_intCsv (i : Int) : readIntToken (intCsv i) = i := by
  cases i with
  | ofNat n =>
    show readIntToken (natCsv n) = n
    cases hc : natCsv n with
    | nil => exact absurd hc (natCsv_ne_nil n)
    | cons c cs =>
      simp only [readIntToken, if_neg (natCsv_head_ne_dash n c cs hc)]
      rw [← hc, readNat_natCsv]
  | negSucc n =>
    show readIntToken ('-' :: natCsv (n + 1)) = _
    simp only [readIntToken, if_pos rfl, readNat_natCsv, Int.negSucc_eq]
    push_cast
    ring

theorem intCsvStr_toList (i : Int) : (intCsvStr i).toList = intCsv i := rfl

theorem na_not_intToken : ∀ v ∈ naTokens, isIntToken v.toList = false := by decide

theorem intCsvStr_not_na (i : Int) : naTokens.contains (intCsvStr i) = false := by
  by_contra h
  have hmem : intCsvStr i ∈ naTokens :=
    List.elem_iff.mp (Bool.not_eq_false _ ▸ h)
  have hfalse := na_not_intToken _ hmem
  rw [intCsvStr_toList, isIntToken_intCsv] at hfalse
  cases hfalse

/-! ## Helper lemmas: column inference and cell parsing -/

theorem intCsvStr_data (i : Int) : (intCsvStr i).data = intCsv i := rfl

theorem intCsvStr_not_mem_na (i : Int) : intCsvStr i ∉ naTokens := by
  intro hm
  have hfalse := na_not_intToken _ hm
  rw [intCsvStr_toList, isIntToken_intCsv] at hfalse
  cases hfalse

theorem parseCell_int (i : Int) : parseCell .intK (intCsvStr i) = .i i := by
  simp [parseCell, intCsvStr_not_mem_na i, intCsvStr_data, readIntToken_intCsv]

theorem parseCell_str (v : String) (hna : v ∉ naTokens) :
    parseCell .objK v = .s v := by
  simp [parseCell, hna]

theorem all_false_of_mem {α : Type} (l : List α) (p : α → Bool) (v : α)
    (hv : v ∈ l) (hp : p v = false) : l.all p = false := by
  cases hb : l.all p with
  | false => rfl
  | true =>
    have h2 := List.all_eq_true.mp hb v hv
    rw [hp] at h2
    cases h2

theorem isNumToken_of_isIntToken (v : String) (h : isIntToken v.toList = true) :
    isNumToken v = true := by
  have hchar : (!v.toList.isEmpty &&
      v.toList.all (fun c => c.isDigit || isWsChar c ||
        c ∈ ['+', '-', '.', 'e', 'E'])) = true := by
    cases hv : v.toList with
    | nil => rw [hv] at h; simp [isIntToken] at h
    | cons c cs =>
      rw [hv] at h
      simp only [isIntToken] at h
      simp only [List.isEmpty_cons, Bool.not_false, Bool.true_and]
      by_cases hc : c = '-'
      · rw [if_pos hc] at h
        subst hc
        have h2 : cs.all (·.isDigit) = true := by
          cases hb : cs.all (·.isDigit) with
          | true => rfl
          | false => rw [hb] at h; simp at h
        apply List.all_eq_true.mpr
        intro x hx
        rcases List.mem_cons.mp hx with rfl | hx2
        · decide
        · have hd := List.all_eq_true.mp h2 x hx2
          simp only at hd
          simp [hd]
      · rw [if_neg hc] at h
        apply List.all_eq_true.mpr
        intro x hx
        have hd := List.all_eq_true.mp h x hx
        simp only at hd
        simp [hd]
  unfold isNumToken
  rw [hchar]
  rfl

theorem dropWhile_eq_self_of_all_false {α : Type} (p : α → Bool) (l : List α)
    (h : ∀ c ∈ l, p c = false) : l.dropWhile p = l := by
  cases l with
  | nil => rfl
  | cons a t =>
    rw [List.dropWhile_cons, h a (List.mem_cons_self a t)]
    simp

theorem coreToken_eq_self (cs : List Char) (h : ∀ c ∈ cs, isWsChar c = false) :
    coreToken cs = cs := by
  unfold coreToken
  rw [dropWhile_eq_self_of_all_false isWsChar cs h]
  rw [dropWhile_eq_self_of_all_false isWsChar cs.reverse
    (fun c hc => h c (List.mem_reverse.mp hc))]
  exact List.reverse_reverse cs

theorem isDigit_not_ws (c : Char) (h : c.isDigit = true) : isWsChar c = false := by
  cases hw : isWsChar c with
  | false => rfl
  | true =>
    have hcases : ((c = ' ' ∨ c = '\t') ∨ c = '\r') ∨ c = '\n' := by
      simpa [isWsChar] using hw
    rcases hcases with ((rfl | rfl) | rfl) | rfl <;> exact absurd h (by decide)

theorem intCsv_not_ws (i : Int) : ∀ c ∈ intCsv i, isWsChar c = false := by
  intro c hc
  cases i with
  | ofNat n =>
    have hc2 : c ∈ natCsv n := hc
    exact isDigit_not_ws c (natCsv_all_digit n c hc2)
  | negSucc n =>
    have hc2 : c ∈ '-' :: natCsv (n + 1) := hc
    rcases List.mem_cons.mp hc2 with rfl | hc3
    · decide
    · exact isDigit_not_ws c (natCsv_all_digit (n + 1) c hc3)

theorem boolTokens_not_intToken : ∀ v ∈ boolTokens, isIntToken v.toList = false := by
  decide

theorem isBoolToken_intCsvStr (i : Int) : isBoolToken (intCsvStr i) = false := by
  unfold isBoolToken
  rw [show (intCsvStr i).toList = intCsv i from rfl]
  rw [coreToken_eq_self (intCsv i) (intCsv_not_ws i)]
  cases hb : boolTokens.contains (String.mk (intCsv i)) with
  | false => rfl
  | true =>
    have hmem : String.mk (intCsv i) ∈ boolTokens := List.elem_iff.mp hb
    have hfalse : isIntToken (intCsv i) = false := boolTokens_not_intToken _ hmem
    rw [isIntToken_intCsv] at hfalse
    cases hfalse

theorem inferIntColumn_intCsvStr {α : Type} (l : List α) (f : α → Int)
    (hl : l ≠ []) : inferIntColumn (l.map fun x => intCsvStr (f x)) = true := by
  have h1 : (l.map fun x => intCsvStr (f x)).isEmpty = false := by
    cases l with
    | nil => exact absurd rfl hl
    | cons b t => simp
  have h2 : (l.map fun x => intCsvStr (f x)).all (fun v => isIntToken v.toList) = true := by
    apply List.all_eq_true.mpr
    intro v hv
    obtain ⟨x, _, rfl⟩ := List.mem_map.mp hv
    show isIntToken (intCsvStr (f x)).toList = true
    rw [intCsvStr_toList]
    exact isIntToken_intCsv (f x)
  unfold inferIntColumn
  rw [h1, h2]
  rfl

theorem inferIntColumn_false_of_mem (col : List String) (v : String)
    (hv : v ∈ col) (h : isNumToken v = false) : inferIntColumn col = false := by
  have hint : isIntToken v.toList = false := by
    cases hi : isIntToken v.toList with
    | false => rfl
    | true => rw [isNumToken_of_isIntToken v hi] at h; cases h
  unfold inferIntColumn
  rw [all_false_of_mem col _ v hv hint, Bool.and_false]

theorem inferBoolColumn_intCsvStr {α : Type} (l : List α) (f : α → Int) :
    inferBoolColumn (l.map fun x => intCsvStr (f x)) = false := by
  cases l with
  | nil => rfl
  | cons a t =>
    unfold inferBoolColumn
    rw [all_false_of_mem _ isBoolToken (intCsvStr (f a))
      (List.mem_map.mpr ⟨a, List.mem_cons_self a t, rfl⟩)
      (isBoolToken_intCsvStr (f a))]
    exact Bool.and_false _

theorem inferBoolColumn_false_of_mem (col : List String) (v : String)
    (hv : v ∈ col) (hb : isBoolToken v = false) :
    inferBoolColumn col = false := by
  unfold inferBoolColumn
  rw [all_false_of_mem col isBoolToken v hv hb]
  exact Bool.and_false _

theorem inferFloatColumn_false_of_mem (col : List String) (v : String)
    (hv : v ∈ col) (hnum : isNumToken v = false) (hna : v ∉ naTokens) :
    inferFloatColumn col = false := by
  have hp : (isNumToken v || naTokens.contains v) = false := by
    have hc : naTokens.contains v = false := by
      cases hb : naTokens.contains v with
      | false => rfl
      | true => exact absurd (List.elem_iff.mp hb) hna
    rw [hnum, hc]
    rfl
  unfold inferFloatColumn
  rw [all_false_of_mem col _ v hv hp]
  exact Bool.and_false _

theorem inferColKind_intCsvStr {α : Type} (l : List α) (f : α → Int)
    (hl : l ≠ []) :
    inferColKind (l.map fun x => intCsvStr (f x)) = .intK := by
  unfold inferColKind
  rw [if_neg (by rw [inferBoolColumn_intCsvStr l f]; exact Bool.false_ne_true)]
  rw [if_pos (inferIntColumn_intCsvStr l f hl)]

theorem inferColKind_obj_of_mem (col : List String) (v : String) (hv : v ∈ col)
    (hnum : isNumToken v = false) (hbool : isBoolToken v = false)
    (hna : v ∉ naTokens) : inferColKind col = .objK := by
  have h1 := inferBoolColumn_false_of_mem col v hv hbool
  have h2 := inferIntColumn_false_of_mem col v hv hnum
  have h3 := inferFloatColumn_false_of_mem col v hv hnum hna
  unfold inferColKind
  rw [if_neg (by rw [h1]; exact Bool.false_ne_true),
    if_neg (by rw [h2]; exact Bool.false_ne_true),
    if_neg (by rw [h3]; exact Bool.false_ne_true)]

/-! ## Helper lemmas: the persist/reload round trip -/

theorem column_toCsvRows (st : Store) :
    column 0 (toCsvRows st) = st.map (fun b => intCsvStr b.id) ∧
    column 1 (toCsvRows st) = st.map (fun b => b.title) ∧
    column 2 (toCsvRows st) = st.map (fun b => b.author) ∧
    column 3 (toCsvRows st) = st.map (fun b => intCsvStr b.year) ∧
    column 4 (toCsvRows st) = st.map (fun b => b.isbn) := by
  refine ⟨?_, ?_, ?_, ?_, ?_⟩ <;>
    simp [column, toCsvRows, List.map_map, Function.comp]

theorem readCsvRows_toCsvRows (st : Store) (hst : st ≠ [])
    (htitle : ∃ b ∈ st, isNumToken b.title = false ∧ isBoolToken b.title = false)
    (hauthor : ∃ b ∈ st, isNumToken b.author = false ∧ isBoolToken b.author = false)
    (hisbn : ∃ b ∈ st, isNumToken b.isbn = false ∧ isBoolToken b.isbn = false)
    (hna : ∀ b ∈ st, b.title ∉ naTokens ∧ b.author ∉ naTokens ∧ b.isbn ∉ naTokens) :
    readCsvRows (toCsvRows st) = st.map embedRow := by
  obtain ⟨c0, c1, c2, c3, c4⟩ := column_toCsvRows st
  have h0 : inferColKind (column 0 (toCsvRows st)) = .intK := by
    rw [c0]; exact inferColKind_intCsvStr st (·.id) hst
  have h3 : inferColKind (column 3 (toCsvRows st)) = .intK := by
    rw [c3]; exact inferColKind_intCsvStr st (·.year) hst
  have h1 : inferColKind (column 1 (toCsvRows st)) = .objK := by
    obtain ⟨b, hb, hnum, hbool⟩ := htitle
    rw [c1]
    exact inferColKind_obj_of_mem _ _ (List.mem_map.mpr ⟨b, hb, rfl⟩)
      hnum hbool (hna b hb).1
  have h2 : inferColKind (column 2 (toCsvRows st)) = .objK := by
    obtain ⟨b, hb, hnum, hbool⟩ := hauthor
    rw [c2]
    exact inferColKind_obj_of_mem _ _ (List.mem_map.mpr ⟨b, hb, rfl⟩)
      hnum hbool (hna b hb).2.1
  have h4 : inferColKind (column 4 (toCsvRows st)) = .objK := by
    obtain ⟨b, hb, hnum, hbool⟩ := hisbn
    rw [c4]
    exact inferColKind_obj_of_mem _ _ (List.mem_map.mpr ⟨b, hb, rfl⟩)
      hnum hbool (hna b hb).2.2
  unfold readCsvRows
  rw [h0, h1, h2, h3, h4]
  unfold toCsvRows
  rw [List.map_map]
  apply List.map_congr_left
  intro b hb
  obtain ⟨hnt, hnau, hni⟩ := hna b hb
  show (⟨parseCell .intK ([intCsvStr b.id, b.title, b.author, intCsvStr b.year,
      b.isbn].getD 0 ""),
    parseCell .objK ([intCsvStr b.id, b.title, b.author, intCsvStr b.year,
      b.isbn].getD 1 ""),
    parseCell .objK ([intCsvStr b.id, b.title, b.author, intCsvStr b.year,
      b.isbn].getD 2 ""),
    parseCell .intK ([intCsvStr b.id, b.title, b.author, intCsvStr b.year,
      b.isbn].getD 3 ""),
    parseCell .objK ([intCsvStr b.id, b.title, b.author, intCsvStr b.year,
      b.isbn].getD 4 "")⟩ : Row) = embedRow b
  simp only [List.getD_cons_zero, List.getD_cons_succ]
  rw [parseCell_int, parseCell_str _ hnt, parseCell_str _ hnau, parseCell_int,
    parseCell_str _ hni]
  rfl

/-- C6 (amended): persisting a collection and reloading it yields an
identical set of records — same ids and same title, author, year and
isbn values — provided the ids and years fit in 64-bit integers (every
collection the program builds does; the model does not track int64
overflow), each of the title, author and isbn columns contains at
least one value that is neither a numeric-format token (including
`inf`/`Infinity`/`nan` spellings) nor a boolean token (a case variant
of `True`/`False`), and no value is one of pandas' NA tokens.  Those
hypotheses force `read_csv` to keep the string columns as `object`
dtype; without them the reload changes values — see the
counterexample, where a title column consisting solely of `"1984"` is
reloaded as the integer `1984`; a title column of `"True"` would
likewise reload as a boolean and one of `"inf"` tokens as floats. -/
theorem loadFromCsv_saveToCsv (st : Store) (hst : st ≠ [])
    (hrange : ∀ b ∈ st, -9223372036854775808 ≤ b.id ∧
      b.id ≤ 9223372036854775807 ∧ -9223372036854775808 ≤ b.year ∧
      b.year ≤ 9223372036854775807)
    (htitle : ∃ b ∈ st, isNumToken b.title = false ∧ isBoolToken b.title = false)
    (hauthor : ∃ b ∈ st, isNumToken b.author = false ∧ isBoolToken b.author = false)
    (hisbn : ∃ b ∈ st, isNumToken b.isbn = false ∧ isBoolToken b.isbn = false)
    (hna : ∀ b ∈ st, b.title ∉ naTokens ∧ b.author ∉ naTokens ∧ b.isbn ∉ naTokens) :
    loadFromCsv (saveToCsv st) = .ok (st.map embedRow) := by
  have hrows := readCsvRows_toCsvRows st hst htitle hauthor hisbn hna
  have hany : ((toCsvRows st).any fun r => decide (header.length < r.length))
      = false := by
    cases hb : (toCsvRows st).any fun r => decide (header.length < r.length) with
    | false => rfl
    | true =>
      obtain ⟨r, hr, hd⟩ := List.any_eq_true.mp hb
      obtain ⟨b, _, rfl⟩ := List.mem_map.mp hr
      simp [header] at hd
  simp only [saveToCsv, loadFromCsv, readCsvFile]
  rw [hany]
  simp [hrows]

/-! ## Helper lemmas: statistics -/

theorem lookup_valueCounts (l : List String) (x : String) :
    (valueCounts l).lookup x = if x ∈ l then some (l.count x) else none := by
  unfold valueCounts
  have hgen : ∀ (ks : List String) (f : String → Nat),
      (ks.map fun a => (a, f a)).lookup x =
        if x ∈ ks then some (f x) else none := by
    intro ks f
    induction ks with
    | nil => simp
    | cons k t ih =>
      by_cases hxk : x = k
      · subst hxk
        simp [List.lookup]
      · have hbeq : (x == k) = false := beq_eq_false_iff_ne.mpr hxk
        simp [List.lookup, hbeq, ih, hxk]
  rw [hgen l.dedup (fun a => l.count a)]
  by_cases hx : x ∈ l
  · rw [if_pos (List.mem_dedup.mpr hx), if_pos hx]
  · rw [if_neg (fun h => hx (List.mem_dedup.mp h)), if_neg hx]

/-! ## The claims -/

/-- C1: for every valid candidate book, `add` assigns the stored record
an id equal to one more than the maximum id present in storage before
the call (or `1` if storage is empty), ignores any id present on the
candidate, appends the record, and the returned record's title, author,
year and isbn equal the candidate's. -/
theorem add_assigns_next_id_and_preserves_fields (s : Store) (b : Book)
    (hb : validBook b = true) :
    ((add s b).1 = s ++ [(add s b).2]) ∧
    (s = [] → (add s b).2.id = 1) ∧
    (s ≠ [] → ((add s b).2.id - 1 ∈ ids s ∧ ∀ i ∈ ids s, i ≤ (add s b).2.id - 1)) ∧
    (∀ j : Option Int, add s { b with id := j } = add s b) ∧
    (add s b).2.title = b.title ∧ (add s b).2.author = b.author ∧
    (add s b).2.year = b.year ∧ (add s b).2.isbn = b.isbn := by
  refine ⟨rfl, ?_, ?_, fun j => rfl, rfl, rfl, rfl, rfl⟩
  · rintro rfl
    rfl
  · intro hs
    have hids : ids s ≠ [] := by
      cases s with
      | nil => exact absurd rfl hs
      | cons a t => simp [ids]
    have hid : (add s b).2.id = colMax (ids s) + 1 := by
      show getNextId s = _
      unfold getNextId
      rw [if_neg (by cases s with
        | nil => exact absurd rfl hs
        | cons a t => simp)]
    constructor
    · rw [hid]
      have hsub : colMax (ids s) + 1 - 1 = colMax (ids s) := by ring
      rw [hsub]
      exact colMax_mem (ids s) hids
    · intro i hi
      rw [hid]
      have := le_colMax (ids s) i hi
      omega

/-- C1 witness: the theorem applied to the empty store and a concrete
valid candidate. -/
theorem add_assigns_next_id_witness :
    validBook ⟨"Dune", "Herbert", 1965, "isbn-0441013593", none⟩ = true ∧
    (add [] ⟨"Dune", "Herbert", 1965, "isbn-0441013593", none⟩).2.id = 1 :=
  ⟨by decide, (add_assigns_next_id_and_preserves_fields []
      ⟨"Dune", "Herbert", 1965, "isbn-0441013593", none⟩ (by decide)).2.1 rfl⟩

/-- C2 counterexample: after adding two books (ids `1` and `2`) and
removing id `2`, the next `add` assigns id `2` again — an id that
belonged to a removed record is reassigned, so assigned ids are not
strictly greater than the maximum id ever present. -/
theorem removed_id_reused_counterexample :
    ((add (add [] ⟨"Dune", "Herbert", 1965, "isbn-0441013593", none⟩).1
        ⟨"1984", "Orwell", 1949, "isbn-0451524935", none⟩).2.id = 2) ∧
    ((remove (add (add [] ⟨"Dune", "Herbert", 1965, "isbn-0441013593", none⟩).1
        ⟨"1984", "Orwell", 1949, "isbn-0451524935", none⟩).1 2).2 = true) ∧
    ((add (remove (add (add [] ⟨"Dune", "Herbert", 1965, "isbn-0441013593", none⟩).1
        ⟨"1984", "Orwell", 1949, "isbn-0451524935", none⟩).1 2).1
        ⟨"Brave New World", "Huxley", 1932, "isbn-0060850523", none⟩).2.id = 2) := by
  refine ⟨by decide, by decide, by decide⟩

/-- C2 (amended): every id assigned by `add` is strictly greater than
every id present in the collection at the time of the call (hence never
collides with a current id); an id freed by `remove` may however be
reassigned by a later `add` once no greater id remains. -/
theorem add_id_gt_all_current_ids (s : Store) (b : Book) (i : Int)
    (hi : i ∈ ids s) : i < (add s b).2.id :=
  mem_lt_getNextId s i hi

/-- C2 witness: the amended theorem applied to a one-record store. -/
theorem add_id_gt_all_current_ids_witness :
    (1 : Int) ∈ ids [⟨1, "Dune", "Herbert", 1965, "isbn-0441013593"⟩] ∧
    (1 : Int) < (add [⟨1, "Dune", "Herbert", 1965, "isbn-0441013593"⟩]
      ⟨"1984", "Orwell", 1949, "isbn-0451524935", none⟩).2.id :=
  ⟨by decide, add_id_gt_all_current_ids
    [⟨1, "Dune", "Herbert", 1965, "isbn-0441013593"⟩]
    ⟨"1984", "Orwell", 1949, "isbn-0451524935", none⟩ 1 (by decide)⟩

/-- C3: `update` on an id absent from storage returns the absent value
and leaves the stored collection unchanged (same rows, same fields). -/
theorem update_absent_id_not_found (s : Store) (i : Int) (b : Book)
    (h : i ∉ ids s) : update s i b = (s, none) := by
  have hc : (ids s).contains i = false := by
    cases hb : (ids s).contains i with
    | false => rfl
    | true => exact absurd (List.elem_iff.mp hb) h
  unfold update
  rw [hc]
  simp

/-- C3 witness: the theorem applied to a concrete store and an id it
does not hold. -/
theorem update_absent_id_not_found_witness :
    (99 : Int) ∉ ids [⟨1, "Dune", "Herbert", 1965, "isbn-0441013593"⟩] ∧
    update [⟨1, "Dune", "Herbert", 1965, "isbn-0441013593"⟩] 99
        ⟨"1984", "Orwell", 1949, "isbn-0451524935", none⟩ =
      ([⟨1, "Dune", "Herbert", 1965, "isbn-0441013593"⟩], none) :=
  ⟨by decide, update_absent_id_not_found
    [⟨1, "Dune", "Herbert", 1965, "isbn-0441013593"⟩] 99
    ⟨"1984", "Orwell", 1949, "isbn-0451524935", none⟩ (by decide)⟩

/-- C4: `update` on a present id returns the replacement carrying the
original id, keeps every row's id unchanged, replaces exactly the
title, author, year and isbn of the rows whose id matches, and leaves
every row with a different id untouched. -/
theorem update_present_id_frame (s : Store) (i : Int) (b : Book)
    (h : i ∈ ids s) :
    ((update s i b).2 = some ⟨i, b.title, b.author, b.year, b.isbn⟩) ∧
    ((update s i b).1.length = s.length) ∧
    (∀ (k : Nat) (hk : k < s.length) (hk2 : k < (update s i b).1.length),
      (((update s i b).1.get ⟨k, hk2⟩).id = (s.get ⟨k, hk⟩).id) ∧
      ((s.get ⟨k, hk⟩).id = i →
        (update s i b).1.get ⟨k, hk2⟩ =
          ⟨(s.get ⟨k, hk⟩).id, b.title, b.author, b.year, b.isbn⟩) ∧
      ((s.get ⟨k, hk⟩).id ≠ i →
        (update s i b).1.get ⟨k, hk2⟩ = s.get ⟨k, hk⟩)) := by
  have hc : (ids s).contains i = true := List.elem_iff.mpr h
  have he : s.isEmpty = false := by
    cases s with
    | nil => simp [ids] at h
    | cons a t => simp
  have hupd : update s i b =
      (s.map (fun r =>
        if r.id = i then ⟨r.id, b.title, b.author, b.year, b.isbn⟩ else r),
       some ⟨i, b.title, b.author, b.year, b.isbn⟩) := by
    unfold update
    rw [hc, he]
    simp
  rw [hupd]
  refine ⟨rfl, by simp, ?_⟩
  intro k hk hk2
  simp only [List.get_eq_getElem, List.getElem_map]
  by_cases hid : (s.get ⟨k, hk⟩).id = i
  · simp only [List.get_eq_getElem] at hid
    simp [hid]
  · simp only [List.get_eq_getElem] at hid
    simp [hid]

/-- C4 witness: the theorem applied to a concrete two-row store at a
present id. -/
theorem update_present_id_frame_witness :
    (1 : Int) ∈ ids [⟨1, "Dune", "Herbert", 1965, "isbn-0441013593"⟩,
      ⟨2, "1984", "Orwell", 1949, "isbn-0451524935"⟩] ∧
    (update [⟨1, "Dune", "Herbert", 1965, "isbn-0441013593"⟩,
        ⟨2, "1984", "Orwell", 1949, "isbn-0451524935"⟩] 1
        ⟨"Dune (rev)", "F. Herbert", 1966, "isbn-0441013594", none⟩).2 =
      some ⟨1, "Dune (rev)", "F. Herbert", 1966, "isbn-0441013594"⟩ :=
  ⟨by decide, (update_present_id_frame
    [⟨1, "Dune", "Herbert", 1965, "isbn-0441013593"⟩,
     ⟨2, "1984", "Orwell", 1949, "isbn-0451524935"⟩] 1
    ⟨"Dune (rev)", "F. Herbert", 1966, "isbn-0441013594", none⟩ (by decide)).1⟩

/-- C5: `remove` of an absent id is a no-op returning `false`, and a
second `remove` of the same id right after a first one returns `false`
and leaves the collection exactly as the first call left it. -/
theorem remove_idempotent (s : Store) (i : Int) :
    (i ∉ ids s → remove s i = (s, false)) ∧
    remove (remove s i).1 i = ((remove s i).1, false) := by
  have habsent : ∀ (t : Store), i ∉ ids t → remove t i = (t, false) := by
    intro t ht
    have hc : (ids t).contains i = false := by
      cases hb : (ids t).contains i with
      | false => rfl
      | true => exact absurd (List.elem_iff.mp hb) ht
    unfold remove
    rw [hc]
    simp
  refine ⟨habsent s, ?_⟩
  by_cases hguard : (s.isEmpty || !((ids s).contains i)) = true
  · have h1 : remove s i = (s, false) := by
      unfold remove
      rw [if_pos hguard]
    rw [h1]
    exact h1
  · have h1 : remove s i = (s.filter (fun r => r.id ≠ i), true) := by
      unfold remove
      rw [if_neg hguard]
    rw [h1]
    apply habsent
    intro hmem
    obtain ⟨r, hr, hrid⟩ := List.mem_map.mp hmem
    have hkeep := (List.mem_filter.mp hr).2
    rw [hrid] at hkeep
    simp at hkeep

/-- C6 counterexample: a stored collection whose only title is the
digit string `"1984"` does not survive the persist/reload round trip —
the title column is inferred as integers, so the reloaded record holds
the integer `1984` where the stored record held the string `"1984"`. -/
theorem roundtrip_numeric_title_counterexample :
    loadFromCsv (saveToCsv [⟨1, "1984", "Orwell", 1949, "isbn-0451524935"⟩]) =
      .ok [⟨.i 1, .i 1984, .s "Orwell", .i 1949, .s "isbn-0451524935"⟩] ∧
    loadFromCsv (saveToCsv [⟨1, "1984", "Orwell", 1949, "isbn-0451524935"⟩]) ≠
      .ok ([⟨1, "1984", "Orwell", 1949, "isbn-0451524935"⟩].map embedRow) := by
  refine ⟨by decide, by decide⟩

/-- C6 witness: the amended round-trip theorem applied to a concrete
one-record collection whose title, author and isbn are neither
numeric-format nor boolean tokens. -/
theorem loadFromCsv_saveToCsv_witness :
    ([⟨1, "Dune", "Herbert", 1965, "isbn-0441013593"⟩] : Store) ≠ [] ∧
    loadFromCsv (saveToCsv [⟨1, "Dune", "Herbert", 1965, "isbn-0441013593"⟩]) =
      .ok ([⟨1, "Dune", "Herbert", 1965, "isbn-0441013593"⟩].map embedRow) :=
  ⟨by decide, loadFromCsv_saveToCsv
    [⟨1, "Dune", "Herbert", 1965, "isbn-0441013593"⟩]
    (by decide) (by decide) (by decide) (by decide) (by decide) (by decide)⟩

/-- C5 witness: the theorem applied to a concrete store and id. -/
theorem remove_idempotent_witness :
    (5 : Int) ∉ ids [⟨1, "Dune", "Herbert", 1965, "isbn-0441013593"⟩] ∧
    remove [⟨1, "Dune", "Herbert", 1965, "isbn-0441013593"⟩] 5 =
      ([⟨1, "Dune", "Herbert", 1965, "isbn-0441013593"⟩], false) :=
  ⟨by decide, (remove_idempotent
    [⟨1, "Dune", "Herbert", 1965, "isbn-0441013593"⟩] 5).1 (by decide)⟩

/-- C7: a candidate whose isbn contains none of the recognized marker
substrings is rejected by the validation boundary with an error
identifying the isbn field (the marker error, or the length error when
the length constraint already fails), so `add` is never reached and the
collection is unchanged. -/
theorem invalid_isbn_rejected (s : Store) (c : Book)
    (h : hasMarker c.isbn = false) :
    (fieldErrors c ≠ []) ∧
    (FieldError.isbnMarker ∈ fieldErrors c ∨ FieldError.isbnLength ∈ fieldErrors c) ∧
    validBook c = false ∧
    createBook s c = (s, .error (fieldErrors c)) := by
  have hD : ∃ d, (if 10 ≤ c.isbn.length ∧ c.isbn.length ≤ 20 then
      (if hasMarker c.isbn then [] else [FieldError.isbnMarker])
      else [FieldError.isbnLength]) = [d] ∧
      (d = FieldError.isbnMarker ∨ d = FieldError.isbnLength) := by
    by_cases hlen : 10 ≤ c.isbn.length ∧ c.isbn.length ≤ 20
    · exact ⟨FieldError.isbnMarker, by rw [if_pos hlen, h]; simp, Or.inl rfl⟩
    · exact ⟨FieldError.isbnLength, by rw [if_neg hlen], Or.inr rfl⟩
  obtain ⟨d, hDeq, hd⟩ := hD
  have hmem : d ∈ fieldErrors c := by
    unfold fieldErrors
    rw [hDeq]
    simp
  have hne : fieldErrors c ≠ [] := by
    intro hnil
    rw [hnil] at hmem
    cases hmem
  have hvb : validBook c = false := by
    unfold validBook
    exact decide_eq_false hne
  refine ⟨hne, ?_, hvb, by simp [createBook, hvb]⟩
  rcases hd with rfl | rfl
  · exact Or.inl hmem
  · exact Or.inr hmem

/-- C7 witness: the theorem applied to the empty store and the spec's
`"no-marker-here"` candidate. -/
theorem invalid_isbn_rejected_witness :
    hasMarker "no-marker-here" = false ∧
    createBook [] ⟨"The Pragmatic Programmer", "Andrew Hunt", 1999,
        "no-marker-here", none⟩ =
      ([], .error (fieldErrors ⟨"The Pragmatic Programmer", "Andrew Hunt", 1999,
        "no-marker-here", none⟩)) :=
  ⟨by decide, (invalid_isbn_rejected []
    ⟨"The Pragmatic Programmer", "Andrew Hunt", 1999, "no-marker-here", none⟩
    (by decide)).2.2.2⟩

/-- C9 counterexample: a malformed backing file whose data row has more
fields than the header raises a parser error that `load_from_csv` does
not catch — it is not treated as an empty collection. -/
theorem malformed_file_parser_error_counterexample :
    loadFromCsv (.table ["id", "title", "author", "year", "isbn"]
      [["1", "Dune", "Herbert", "1965", "isbn-0441013593", "EXTRA"]]) =
      .error .parserError ∧
    loadFromCsv (.table ["id", "title", "author", "year", "isbn"]
      [["1", "Dune", "Herbert", "1965", "isbn-0441013593", "EXTRA"]]) ≠
      .ok [] := by
  refine ⟨by decide, by decide⟩

/-- C9 (amended): a missing backing file, a zero-byte file, and a
header-only file are each treated as an empty collection — loading
yields the empty frame, and reads on the empty frame behave as on an
empty store — but a malformed file whose data row is longer than the
header raises an uncaught parser error (see the counterexample). -/
theorem missing_or_empty_file_empty_collection :
    loadFromCsv .missing = .ok [] ∧
    loadFromCsv .emptyFile = .ok [] ∧
    (∀ hdr, loadFromCsv (.table hdr []) = .ok []) ∧
    (∀ i, frameGet [] i = none) := by
  refine ⟨rfl, rfl, fun hdr => ?_, fun i => rfl⟩
  simp [loadFromCsv, readCsvFile, readCsvRows]

/-- C10: the validation boundary accepts a candidate exactly when the
title is 1–200 characters, the author 1–100 characters, the year
between 1000 and 2024, the isbn 10–20 characters, and the lowercased
isbn contains one of the substrings `isbn`, `978` or `979`. -/
theorem validBook_iff (c : Book) :
    validBook c = true ↔
      (1 ≤ c.title.length ∧ c.title.length ≤ 200 ∧
       1 ≤ c.author.length ∧ c.author.length ≤ 100 ∧
       1000 ≤ c.year ∧ c.year ≤ 2024 ∧
       10 ≤ c.isbn.length ∧ c.isbn.length ≤ 20 ∧
       ("isbn".toList <:+: c.isbn.toList.map Char.toLower ∨
        "978".toList <:+: c.isbn.toList.map Char.toLower ∨
        "979".toList <:+: c.isbn.toList.map Char.toLower)) := by
  have hmarker : hasMarker c.isbn = true ↔
      ("isbn".toList <:+: c.isbn.toList.map Char.toLower ∨
       "978".toList <:+: c.isbn.toList.map Char.toLower ∨
       "979".toList <:+: c.isbn.toList.map Char.toLower) := by
    simp [hasMarker, markers]
  constructor
  · intro hv
    have hnil : fieldErrors c = [] := of_decide_eq_true hv
    unfold fieldErrors at hnil
    by_cases h1 : 1 ≤ c.title.length ∧ c.title.length ≤ 200
    · by_cases h2 : 1 ≤ c.author.length ∧ c.author.length ≤ 100
      · by_cases h3 : 1000 ≤ c.year ∧ c.year ≤ 2024
        · by_cases h4 : 10 ≤ c.isbn.length ∧ c.isbn.length ≤ 20
          · rw [if_pos h1, if_pos h2, if_pos h3, if_pos h4] at hnil
            by_cases h5 : hasMarker c.isbn = true
            · exact ⟨h1.1, h1.2, h2.1, h2.2, h3.1, h3.2, h4.1, h4.2,
                hmarker.mp h5⟩
            · rw [if_neg h5] at hnil
              simp at hnil
          · rw [if_neg h4] at hnil
            simp at hnil
        · rw [if_neg h3] at hnil
          simp at hnil
      · rw [if_neg h2] at hnil
        simp at hnil
    · rw [if_neg h1] at hnil
      simp at hnil
  · rintro ⟨ht1, ht2, ha1, ha2, hy1, hy2, hi1, hi2, hm⟩
    apply decide_eq_true
    unfold fieldErrors
    rw [if_pos ⟨ht1, ht2⟩, if_pos ⟨ha1, ha2⟩, if_pos ⟨hy1, hy2⟩,
      if_pos ⟨hi1, hi2⟩, if_pos (hmarker.mpr hm)]
    rfl

/-- C8: `statistics()` on an empty collection returns the zero-records
sentinel; on a non-empty collection it returns the total count, the
number of distinct authors, the minimum and maximum years, the mean
year rounded to one decimal, and the per-author book counts; on the
two-record scenario with years 1949 and 1965 and distinct authors it
yields oldest 1949, newest 1965, average 1957.0, total 2 and
authors_count 2. -/
theorem statistics_spec :
    (getBooksStatistics [] = .emptyResult) ∧
    (∀ s : Store, s ≠ [] →
      ∃ avg perAuthor,
        getBooksStatistics s = .stats s.length (authorsOf s).toFinset.card
          (colMin (yearsOf s)) (colMax (yearsOf s)) avg perAuthor ∧
        colMin (yearsOf s) ∈ yearsOf s ∧
        (∀ y ∈ yearsOf s, colMin (yearsOf s) ≤ y) ∧
        colMax (yearsOf s) ∈ yearsOf s ∧
        (∀ y ∈ yearsOf s, y ≤ colMax (yearsOf s)) ∧
        avg = roundTo1 (((yearsOf s).sum : ℚ) / (s.length : ℚ)) ∧
        (∀ x, perAuthor.lookup x =
          if x ∈ authorsOf s then some ((authorsOf s).count x) else none)) ∧
    (getBooksStatistics
        [⟨1, "1984", "Orwell", 1949, "isbn-0451524935"⟩,
         ⟨2, "Dune", "Herbert", 1965, "isbn-0441013593"⟩] =
      .stats 2 2 1949 1965 1957 [("Orwell", 1), ("Herbert", 1)]) := by
  refine ⟨rfl, ?_, ?_⟩
  · intro s hs
    have he : s.isEmpty = false := by
      cases s with
      | nil => exact absurd rfl hs
      | cons a t => simp
    have hy : yearsOf s ≠ [] := by
      cases s with
      | nil => exact absurd rfl hs
      | cons a t => simp [yearsOf]
    refine ⟨roundTo1 (((yearsOf s).sum : ℚ) / (s.length : ℚ)),
      valueCounts (authorsOf s), ?_, colMin_mem _ hy,
      fun y hy2 => colMin_le _ y hy2, colMax_mem _ hy,
      fun y hy2 => le_colMax _ y hy2, rfl,
      fun x => lookup_valueCounts _ x⟩
    unfold getBooksStatistics
    rw [if_neg (by simp [he])]
    rfl
  · simp [getBooksStatistics, yearsOf, authorsOf, colMin, colMax, valueCounts,
      List.dedup, List.count, roundTo1, roundHalfEven]
    norm_num

/-- C8 witness: the non-empty branch of the statistics specification
applied to a concrete one-record store. -/
theorem statistics_spec_witness :
    statsWitnessStore ≠ [] ∧
    (∃ avg perAuthor,
      getBooksStatistics statsWitnessStore =
        .stats statsWitnessStore.length
          (authorsOf statsWitnessStore).toFinset.card
          (colMin (yearsOf statsWitnessStore))
          (colMax (yearsOf statsWitnessStore)) avg perAuthor ∧
      colMin (yearsOf statsWitnessStore) ∈ yearsOf statsWitnessStore ∧
      (∀ y ∈ yearsOf statsWitnessStore, colMin (yearsOf statsWitnessStore) ≤ y) ∧
      colMax (yearsOf statsWitnessStore) ∈ yearsOf statsWitnessStore ∧
      (∀ y ∈ yearsOf statsWitnessStore, y ≤ colMax (yearsOf statsWitnessStore)) ∧
      avg = roundTo1 (((yearsOf statsWitnessStore).sum : ℚ) /
        (statsWitnessStore.length : ℚ)) ∧
      (∀ x, perAuthor.lookup x =
        if x ∈ authorsOf statsWitnessStore
        then some ((authorsOf statsWitnessStore).count x) else none)) :=
  ⟨by decide, statistics_spec.2.1 statsWitnessStore (by decide)⟩

end Library
